import Mathlib

/-!
Verification of the snakemake job scheduler core (`snakemake/jobs.py`).

The file shallowly embeds the data model and operations of `jobs.py`:
the `Job.finished` / `Job.cleanup` lifecycle, the 0/1 knapsack of
`KnapsackJobScheduler`, the ready-job partition of both schedulers, the
core accounting of the local scheduler, the dependency-edge mutations,
the cluster script naming, and the dynamic-expansion handlers.  External
collaborators (the filesystem `listfiles` enumeration, the rule factory,
`handle_dynamic_output` as seen from `finished`) are taken as function
parameters, mirroring how the Python methods call out to them.
-/

namespace Snakemake

/-! ## Job lifecycle state (Job.__init__ fields used by finished/cleanup) -/

/-- The per-job state relevant to `Job.finished` and `Job.cleanup`.
`output` pairs each output file with its `rule.is_dynamic` flag.
`depending` holds the job ids of dependent jobs.  `fired` and
`errorFired` count how many rounds of completion (`_callbacks`) and
error (`_error_callbacks`) callbacks have been invoked. -/
structure JobState where
  needrun : Bool
  pseudo : Bool
  ignore : Bool
  dryrun : Bool
  dynamicOutput : Bool
  isFinished : Bool
  output : List (String × Bool)
  input : List String
  depending : List Nat
  fired : Nat
  errorFired : Nat

/-- `Job.cleanup` (jobs.py lines 240-247): when the job is not yet
finished, remove every output file; a dynamic output pattern is expanded
through `listfiles` (passed as `listfilesF`), a plain output is removed
directly.  The filesystem is a list of existing file names. -/
def cleanup (listfilesF : String → List String) (j : JobState)
    (fs : List String) : List String :=
  if !j.isFinished then
    j.output.foldl
      (fun acc o =>
        if o.2 then (listfilesF o.1).foldl (fun a f => a.erase f) acc
        else acc.erase o.1)
      fs
  else fs

/-- The post-run output verification performed inside `Job.finished`
(jobs.py lines 210-215): `o.created(...)` raises `MissingOutputException`
when a declared non-dynamic output is absent from disk.  `used` on the
inputs has no observable effect in this model. -/
def createdOk (fs : List String) (j : JobState) : Bool :=
  j.output.all (fun o => o.2 || fs.contains o.1)

/-- Result of one `Job.finished` invocation: the job, the `depends` sets
of the other jobs (indexed by job id), and the filesystem. -/
structure FinishedResult where
  job : JobState
  deps : Nat → List Nat
  fs : List String

/-- `Job.finished` (jobs.py lines 198-238).  `future = none` models a
call without a future; `future = some e` a worker future whose
`exception()` is non-`None` iff `e = true`.  `hdo` stands for the
`self.handle_dynamic_output()` call: that method assigns no attribute
of `self` (jobs.py lines 249-280 mutate only other jobs' edges, the
scheduler's job set and the workflow counter), so it transforms only
the `depends` environment of the other jobs.  `listfilesF` is
`listfiles`.  `deps` maps every other job id to its `depends` set (as
the Python `set`, kept duplicate-free).  The result is `none` when the
Python code would raise out of `finished` (a `KeyError` from
`other.depends.remove`, which happens before either callback loop; the
partial mutation Python leaves behind in that case is discarded because
the exception aborts the remaining observable steps). -/
def finished (selfId : Nat) (future : Option Bool)
    (hdo : JobState → (Nat → List Nat) → Nat → List Nat)
    (listfilesF : String → List String)
    (j : JobState) (deps : Nat → List Nat) (fs : List String) :
    Option FinishedResult :=
  let j1 : JobState := { j with isFinished := true }
  if j1.ignore then
    some ⟨{ j1 with fired := j1.fired + 1 }, deps, fs⟩
  else
    let tryFailed : Bool :=
      future.getD false || (!j1.dryrun && !createdOk fs j1)
    if j1.needrun && !j1.pseudo && tryFailed then
      some ⟨{ j1 with errorFired := j1.errorFired + 1 }, deps,
        cleanup listfilesF j1 fs⟩
    else if j1.depending.any (fun o => !(deps o).contains selfId) then
      none
    else
      let deps1 : Nat → List Nat := fun a =>
        if a ∈ j1.depending then (deps a).erase selfId else deps a
      let deps2 :=
        if !j1.dryrun && j1.dynamicOutput then hdo j1 deps1 else deps1
      some ⟨{ j1 with fired := j1.fired + 1 }, deps2, fs⟩

/-! ## The 0/1 knapsack of KnapsackJobScheduler (jobs.py lines 415-437)

The Python builds the table `K` with `K[i][j]` the best value over the
first `i` jobs at capacity `j` (weight = value = `threads`), then walks
`i` downward reconstructing the selected set.  `knapSack ts j` is
`K[len ts][j]` where the list head plays the role of the highest-index
item, and `knapSelect` is the reconstruction loop: an item is taken
exactly when `K[i][j] != K[i-1][j]`, in which case `j` is decremented by
its threads. -/

/-- The knapsack table value `K[i][j]` (jobs.py lines 417-425):
`K[i][j] = K[i-1][j]` when `t > j`, else
`max (K[i-1][j]) (t + K[i-1][j-t])`. -/
def knapSack : List Nat → Nat → Nat
  | [], _ => 0
  | t :: ts, j =>
    if j < t then knapSack ts j
    else max (knapSack ts j) (t + knapSack ts (j - t))

/-- The reconstruction walk (jobs.py lines 427-437): item `i` is selected
iff `K[i][j] != K[i-1][j]`, and then `j` is decreased by its threads. -/
def knapSelect : List Nat → Nat → List Nat
  | [], _ => []
  | t :: ts, j =>
    if knapSack (t :: ts) j ≠ knapSack ts j then t :: knapSelect ts (j - t)
    else knapSelect ts j

/-! ## The scheduler's view of a job, and the ready-job partition -/

/-- The attributes of a job the scheduling loops read
(jobs.py lines 374-397 and 464-476). -/
structure SJob where
  jobid : Nat
  threads : Nat
  depends : List Nat
  needrun : Bool
  dryrun : Bool
deriving DecidableEq, Repr

/-- The thread clamp (jobs.py lines 379-386): a job asking for more
threads than `maxcores` is scaled down to `maxcores`. -/
def clampThreads (maxcores : Nat) (j : SJob) : SJob :=
  if maxcores < j.threads then { j with threads := maxcores } else j

/-- The `needrun` list built by `KnapsackJobScheduler.schedule`
(jobs.py lines 374-388): jobs with a non-empty `depends` are skipped,
`needrun` jobs are clamped and collected. -/
def localNeedrun (maxcores : Nat) (jobs : List SJob) : List SJob :=
  (jobs.filter (fun j => j.depends.isEmpty && j.needrun)).map
    (clampThreads maxcores)

/-- The `norun` set of both scheduling loops: ready jobs with
`needrun = false`. -/
def norunSet (jobs : List SJob) : List SJob :=
  jobs.filter (fun j => j.depends.isEmpty && !j.needrun)

/-- The `needrun` set built by `ClusterJobScheduler.schedule`
(jobs.py lines 464-470): ready jobs with `needrun = true`, no clamping. -/
def clusterNeedrun (jobs : List SJob) : List SJob :=
  jobs.filter (fun j => j.depends.isEmpty && j.needrun)

/-- `KnapsackJobScheduler._knapsack` table value over jobs
(`t = jobs[i-1].threads`, jobs.py lines 419-425). -/
def knapSackJ : List SJob → Nat → Nat
  | [], _ => 0
  | j :: js, c =>
    if c < j.threads then knapSackJ js c
    else max (knapSackJ js c) (j.threads + knapSackJ js (c - j.threads))

/-- `KnapsackJobScheduler._knapsack` reconstruction over jobs
(jobs.py lines 427-437). -/
def knapSelectJ : List SJob → Nat → List SJob
  | [], _ => []
  | j :: js, c =>
    if knapSackJ (j :: js) c ≠ knapSackJ js c then
      j :: knapSelectJ js (c - j.threads)
    else knapSelectJ js c

/-- The jobs dispatched in one wakeup of `KnapsackJobScheduler.schedule`
(jobs.py lines 390-397): the knapsack selection over the ready `needrun`
list, together with the ready `norun` jobs. -/
def localDispatch (maxcores cores : Nat) (jobs : List SJob) : List SJob :=
  knapSelectJ (localNeedrun maxcores jobs) cores ++ norunSet jobs

/-- The jobs dispatched in one wakeup of `ClusterJobScheduler.schedule`
(jobs.py lines 472-476): all ready jobs. -/
def clusterDispatch (jobs : List SJob) : List SJob :=
  clusterNeedrun jobs ++ norunSet jobs

/-! ## Core accounting of the local scheduler -/

/-- The resource state of `KnapsackJobScheduler`: `_maxcores`, `_cores`,
and the thread counts of the currently running `needrun` jobs. -/
structure SchedState where
  maxcores : Nat
  cores : Nat
  running : List Nat
deriving DecidableEq, Repr

/-- One dispatch wave (jobs.py lines 390-397): `ready` is the thread
list of the ready `needrun` jobs; the knapsack selection is deducted
from `_cores` and starts running. -/
def dispatchStep (s : SchedState) (ready : List Nat) : SchedState :=
  { s with
    cores := s.cores - (knapSelect ready s.cores).sum,
    running := s.running ++ knapSelect ready s.cores }

/-- `KnapsackJobScheduler._finished` for a `needrun` job
(jobs.py lines 404-407): its threads are returned to `_cores`. -/
def finishOkStep (s : SchedState) (t : Nat) : SchedState :=
  { s with cores := s.cores + t, running := s.running.erase t }

/-- The error path: a failed job fires only its error callbacks, so
`_finished` never runs and `KnapsackJobScheduler._error`
(jobs.py lines 409-413) leaves `_cores` untouched while the job stops
running. -/
def errorStep (s : SchedState) (t : Nat) : SchedState :=
  { s with running := s.running.erase t }

/-- The resource invariant claimed for the local scheduler. -/
def coresInvariant (s : SchedState) : Prop :=
  s.cores + s.running.sum = s.maxcores

instance (s : SchedState) : Decidable (coresInvariant s) := by
  unfold coresInvariant
  infer_instance

/-! ## Dependency edges of the job DAG -/

/-- The edge state of the DAG: the ids of the jobs present, each job's
`depends` set and `depending` list.  Python keeps `depends` as a `set`;
it never holds duplicates, so a duplicate-free list with `erase` models
`set.remove` faithfully. -/
structure DagState where
  jobs : List Nat
  depends : Nat → List Nat
  depending : Nat → List Nat

def dagEmpty : DagState := ⟨[], fun _ => [], fun _ => []⟩

/-- `Job.__init__` (jobs.py lines 82-92): the new job stores its
dependency set and appends itself to each dependency's `depending`
list.  `deps` is duplicate-free, as the Python `set(depends)` is. -/
def initJob (newId : Nat) (deps : List Nat) (s : DagState) : DagState :=
  { jobs := s.jobs ++ [newId],
    depends := fun a => if a = newId then deps else s.depends a,
    depending := fun b =>
      if b ∈ deps then s.depending b ++ [newId] else s.depending b }

/-- The detach loop of `Job.finished` (jobs.py lines 231-232):
`for other in self.depending: other.depends.remove(self)`.
`self.depending` itself is left as it was. -/
def finishedDetach (selfId : Nat) (s : DagState) : DagState :=
  { s with
    depends := fun a =>
      if a ∈ s.depending selfId then (s.depends a).erase selfId
      else s.depends a }

/-- The splice of `Job.handle_dynamic_input` (jobs.py lines 302-311):
the job is erased from its dependencies' `depending` lists and from its
dependents' `depends` sets, and its own `depends` is emptied; its own
`depending` list is left as it was. -/
def dynamicDetach (selfId : Nat) (s : DagState) : DagState :=
  { s with
    depending := fun b =>
      if b ∈ s.depends selfId then (s.depending b).erase selfId
      else s.depending b,
    depends := fun a =>
      if a = selfId then []
      else if a ∈ s.depending selfId then (s.depends a).erase selfId
      else s.depends a }

/-- The bidirectional edge invariant of the specification:
`b ∈ a.depends ⇔ a ∈ b.depending` for all jobs in the DAG. -/
def edgeConsistent (s : DagState) : Prop :=
  ∀ a ∈ s.jobs, ∀ b ∈ s.jobs,
    (b ∈ s.depends a ↔ a ∈ s.depending b)

instance (s : DagState) : Decidable (edgeConsistent s) := by
  unfold edgeConsistent
  infer_instance

/-- The one-directional edge invariant: every `depends` edge is backed
by a `depending` entry. -/
def edgeForward (s : DagState) : Prop :=
  ∀ a b : Nat, b ∈ s.depends a → a ∈ s.depending b

/-! ## Cluster script and sentinel names
(ClusterJobScheduler._run_job, jobs.py lines 478-499) -/

/-- Python `"_".join(ss)`: the strings joined with a single underscore
between consecutive elements. -/
def joinUnderscore : List String → String
  | [] => ""
  | [x] => x
  | x :: xs => x ++ "_" ++ joinUnderscore xs

/-- Python `s.replace("/", "_")` for the one-character pattern used
here: every slash becomes an underscore. -/
def slashToUnderscore (s : String) : String :=
  ⟨s.data.map (fun c => if c = '/' then '_' else c)⟩

/-- `"_".join(job.output).replace("/", "_")` (jobs.py line 482). -/
def clusterJobidStr (output : List String) : String :=
  slashToUnderscore (joinUnderscore output)

/-- `".snakemake.{}.".format(job.rule.name)` (jobs.py line 481). -/
def clusterPrefixStr (rulename : String) : String :=
  ".snakemake." ++ rulename ++ "."

/-- `"{}.{}.sh".format(prefix, jobid)` (jobs.py line 483). -/
def clusterJobscript (rulename : String) (output : List String) : String :=
  clusterPrefixStr rulename ++ "." ++ clusterJobidStr output ++ ".sh"

/-- `"{}.{}.jobfinished".format(prefix, jobid)` (jobs.py line 484). -/
def clusterJobfinished (rulename : String) (output : List String) : String :=
  clusterPrefixStr rulename ++ "." ++ clusterJobidStr output ++ ".jobfinished"

/-- `"{}.{}.jobfailed".format(prefix, jobid)` (jobs.py line 485). -/
def clusterJobfailed (rulename : String) (output : List String) : String :=
  clusterPrefixStr rulename ++ "." ++ clusterJobidStr output ++ ".jobfailed"

/-! ## Dynamic expansion: handle_dynamic_output
(jobs.py lines 249-280) -/

/-- The observable outcome of `Job.handle_dynamic_output`: the set of
jobs handed to `scheduler.add_jobs`, the increment applied to
`workflow.jobcounter.count`, and whether the warning was logged. -/
structure DynOutResult where
  attached : Finset Nat
  counterDelta : Int
  warned : Bool
deriving DecidableEq

/-- The union of the `all_jobs()` sets of the replacement jobs returned
by the ancestors (jobs.py lines 257-264): `new_jobs.update(j.all_jobs())`
for each ancestor whose `handle_dynamic_input` returned a job. -/
def newJobsUnion (ancestorResults : List (Option (Finset Nat))) :
    Finset Nat :=
  ancestorResults.foldl
    (fun acc r => match r with | some s => acc ∪ s | none => acc) ∅

/-- The `dynamic` counter (jobs.py lines 258-264): the number of
ancestors whose expansion produced a replacement job. -/
def dynCount (ancestorResults : List (Option (Finset Nat))) : Nat :=
  (ancestorResults.filter Option.isSome).length

/-- `Job.handle_dynamic_output` net effect (jobs.py lines 256-280):
collect the replacement jobs, drop the originating job from the set if
present, compute `n = len(new_jobs) - dynamic`, warn iff `n` is
non-zero (`if n:`), attach the set, and add `n` to the job counter.
Each ancestor's `handle_dynamic_input` result is abstracted as
`none` (no replacement) or `some s` (the `all_jobs()` id set of the
replacement job). -/
def handleDynamicOutput (selfId : Nat)
    (ancestorResults : List (Option (Finset Nat))) : DynOutResult :=
  let newJobs := newJobsUnion ancestorResults
  let newJobs' :=
    if selfId ∈ newJobs then newJobs.erase selfId else newJobs
  let n : Int := (newJobs'.card : Int) - (dynCount ancestorResults : Int)
  ⟨newJobs', n, n != 0⟩

/-! ## Dynamic expansion: handle_dynamic_input
(jobs.py lines 282-316) -/

/-- The state of an ancestor job touched by `handle_dynamic_input`:
the rule's input list (each file with its dynamic flag), the job's own
`depends` and `depending`, and the `ignore` flag. -/
structure AncestorState where
  input : List (String × Bool)
  depends : List Nat
  depending : List Nat
  ignore : Bool
deriving DecidableEq, Repr

/-- The expansion loop of `handle_dynamic_input` (jobs.py lines
283-297).  `expandF` is `expand(f, zip, **wildcard_expansion)`;
`none` models the `except` at line 289.  The result is `none` as soon
as one dynamic input fails to expand; otherwise the rewritten input
list (a dynamic slot with a non-empty expansion is replaced by its
files in reversed order with the dynamic flag cleared, matching the
`reversed` iteration at line 287 and the splice at lines 295-297; a
dynamic slot expanding to no file contributes no `expansion` entry and
stays as it is) together with a flag telling whether any slot was
replaced (`expansion` non-empty, line 292). -/
def expandInputs (expandF : String → Option (List String)) :
    List (String × Bool) → Option (List (String × Bool) × Bool)
  | [] => some ([], false)
  | (f, dyn) :: rest =>
    if dyn then
      match expandF f with
      | none => none
      | some files =>
        match expandInputs expandF rest with
        | none => none
        | some (r, b) =>
          if files.isEmpty then some ((f, dyn) :: r, b)
          else some (files.reverse.map (fun e => (e, false)) ++ r, true)
    else
      match expandInputs expandF rest with
      | none => none
      | some (r, b) => some ((f, dyn) :: r, b)

/-- `Job.handle_dynamic_input` (jobs.py lines 282-316).  `factory`
stands for `self.rule.run(...)` run against the rewritten rule input
(`none` models the `except` at line 314).  The result pairs the
returned replacement job (if any) with the ancestor's new state: on an
expansion failure or when no slot was replaced, the state is returned
untouched; on factory failure the input rewrite has already happened;
on success the job is additionally detached (`depends` emptied,
`ignore` set; its own `depending` list is kept, the edge erasure on the
neighbours being `dynamicDetach`). -/
def handleDynamicInput (expandF : String → Option (List String))
    (factory : List (String × Bool) → Option Nat)
    (st : AncestorState) : Option Nat × AncestorState :=
  match expandInputs expandF st.input with
  | none => (none, st)
  | some (newInput, replaced) =>
    if !replaced then (none, st)
    else
      let st1 := { st with input := newInput }
      match factory newInput with
      | some jid =>
        (some jid, { st1 with depends := [], ignore := true })
      | none => (none, st1)

/-! ## Concrete scenarios used by the closed theorems -/

/-- A `handle_dynamic_output` stub that changes no edges, for jobs
whose `dynamic_output` flag is off. -/
def idHdo : JobState → (Nat → List Nat) → Nat → List Nat :=
  fun _ d => d

/-- A `listfiles` returning no match. -/
def emptyLf : String → List String := fun _ => []

/-- No other job has dependencies. -/
def emptyDeps : Nat → List Nat := fun _ => []

/-- A `needrun`, non-pseudo job with one plain declared output, not yet
finished: the failing input of the error-path cleanup claim. -/
def c1FailJob : JobState :=
  ⟨true, false, false, false, false, false, [("out.txt", false)], [], [],
    0, 0⟩

/-- A plain already-completed job (`needrun = false`) with no
dependents: the double-invocation scenario. -/
def c4Job : JobState :=
  ⟨false, false, false, false, false, false, [], [], [], 0, 0⟩

/-- `Job.finished` invoked twice in a row on `c4Job`, observing the
number of completion-callback rounds fired. -/
def c4DoubleRun : Option Nat :=
  ((finished 0 none idHdo emptyLf c4Job emptyDeps []).bind
    (fun r => finished 0 none idHdo emptyLf r.job r.deps r.fs)).map
    (fun r => r.job.fired)

/-- Three ready `needrun` jobs with threads 3, 2, 2 (spec scenario c). -/
def readyThreeJobs : List SJob :=
  [⟨0, 3, [], true, false⟩, ⟨1, 2, [], true, false⟩,
    ⟨2, 2, [], true, false⟩]

/-- A single ready one-thread `needrun` job. -/
def oneReadyJob : SJob := ⟨0, 1, [], true, false⟩

/-- A two-job DAG: job 1 depends on job 0. -/
def twoJobDag : DagState := initJob 1 [0] (initJob 0 [] dagEmpty)

/-- An ancestor with one dynamic and one plain input, one dependency
and one dependent. -/
def c9Ancestor : AncestorState := ⟨[("p", true), ("q", false)], [3], [4], false⟩

/-! ## Helper lemmas -/

theorem cleanup_of_finished (listfilesF : String → List String)
    (j : JobState) (fs : List String) (h : j.isFinished = true) :
    cleanup listfilesF j fs = fs := by
  simp [cleanup, h]

theorem knapSack_le : ∀ (ts : List Nat) (j : Nat), knapSack ts j ≤ j
  | [], j => Nat.zero_le j
  | t :: ts, j => by
    simp only [knapSack]
    split
    · exact knapSack_le ts j
    · rename_i h
      have h1 := knapSack_le ts j
      have h2 := knapSack_le ts (j - t)
      omega

theorem knapSack_cons_ge (t : Nat) (ts : List Nat) (j : Nat) :
    knapSack ts j ≤ knapSack (t :: ts) j := by
  simp only [knapSack]
  split
  · exact Nat.le_refl _
  · exact Nat.le_max_left _ _

theorem knapSelect_sublist : ∀ (ts : List Nat) (j : Nat),
    (knapSelect ts j).Sublist ts
  | [], _ => List.Sublist.refl []
  | t :: ts, j => by
    simp only [knapSelect]
    split
    · exact (knapSelect_sublist ts (j - t)).cons₂ t
    · exact (knapSelect_sublist ts j).cons t

theorem knapSelect_sum : ∀ (ts : List Nat) (j : Nat),
    (knapSelect ts j).sum = knapSack ts j
  | [], j => by simp [knapSelect, knapSack]
  | t :: ts, j => by
    simp only [knapSelect]
    split
    · rename_i hne
      by_cases hj : j < t
      · exact absurd (by simp [knapSack, hj]) hne
      · have hmax : knapSack (t :: ts) j =
            max (knapSack ts j) (t + knapSack ts (j - t)) := by
          simp [knapSack, hj]
        have : knapSack (t :: ts) j = t + knapSack ts (j - t) := by
          rcases max_choice (knapSack ts j) (t + knapSack ts (j - t))
            with h | h
          · exact absurd (hmax.trans h) hne
          · exact hmax.trans h
        simp [List.sum_cons, knapSelect_sum ts (j - t), this]
    · rename_i hne
      have heq : knapSack (t :: ts) j = knapSack ts j := by
        by_contra h
        exact hne h
      rw [knapSelect_sum ts j, heq]

theorem knapSack_is_max : ∀ (ts : List Nat) (j : Nat) (s : List Nat),
    s.Sublist ts → s.sum ≤ j → s.sum ≤ knapSack ts j
  | [], j, s, hsub, _ => by
    have hnil : s = [] := List.sublist_nil.mp hsub
    subst hnil
    simp [knapSack]
  | t :: ts, j, s, hsub, hle => by
    cases hsub with
    | cons _ h =>
      exact (knapSack_is_max ts j s h hle).trans (knapSack_cons_ge t ts j)
    | cons₂ _ h =>
      rename_i s'
      simp only [List.sum_cons] at hle ⊢
      have hts : t ≤ j := by omega
      have hs' : s'.sum ≤ j - t := by omega
      have ih := knapSack_is_max ts (j - t) s' h hs'
      have hmax : knapSack (t :: ts) j =
          max (knapSack ts j) (t + knapSack ts (j - t)) := by
        simp [knapSack, Nat.not_lt.mpr hts]
      rw [hmax]
      have := Nat.le_max_right (knapSack ts j) (t + knapSack ts (j - t))
      omega

theorem knapSackJ_eq_knapSack : ∀ (js : List SJob) (c : Nat),
    knapSackJ js c = knapSack (js.map SJob.threads) c
  | [], _ => rfl
  | j :: js, c => by
    simp only [knapSackJ, List.map_cons, knapSack,
      knapSackJ_eq_knapSack js]

theorem knapSelectJ_map_threads : ∀ (js : List SJob) (c : Nat),
    (knapSelectJ js c).map SJob.threads =
      knapSelect (js.map SJob.threads) c
  | [], _ => rfl
  | j :: js, c => by
    have hc : knapSack (j.threads :: js.map SJob.threads) c =
        knapSackJ (j :: js) c := by
      rw [knapSackJ_eq_knapSack, List.map_cons]
    have hr : knapSack (js.map SJob.threads) c = knapSackJ js c :=
      (knapSackJ_eq_knapSack js c).symm
    by_cases h : knapSackJ (j :: js) c = knapSackJ js c
    · simp [knapSelectJ, knapSelect, h, hc, hr,
        knapSelectJ_map_threads js]
    · simp [knapSelectJ, knapSelect, h, hc, hr,
        knapSelectJ_map_threads js]

theorem knapSelectJ_sublist : ∀ (js : List SJob) (c : Nat),
    (knapSelectJ js c).Sublist js
  | [], _ => List.Sublist.refl []
  | j :: js, c => by
    simp only [knapSelectJ]
    split
    · exact (knapSelectJ_sublist js (c - j.threads)).cons₂ j
    · exact (knapSelectJ_sublist js c).cons j

theorem clampThreads_depends (m : Nat) (j : SJob) :
    (clampThreads m j).depends = j.depends := by
  unfold clampThreads
  split <;> rfl

theorem expandInputs_fail (expandF : String → Option (List String))
    (f : String) :
    ∀ inp : List (String × Bool), (f, true) ∈ inp → expandF f = none →
      expandInputs expandF inp = none := by
  intro inp
  induction inp with
  | nil => intro h _; exact absurd h (List.not_mem_nil _)
  | cons p rest ih =>
    intro hmem hfail
    obtain ⟨g, dyn⟩ := p
    rcases List.mem_cons.mp hmem with heq | hrest
    · injection heq with h1 h2
      subst h1
      subst h2
      simp [expandInputs, hfail]
    · cases dyn with
      | false => simp [expandInputs, ih hrest hfail]
      | true =>
        cases hef : expandF g with
        | none => simp [expandInputs, hef]
        | some files => simp [expandInputs, hef, ih hrest hfail]

/-! ## Claim theorems -/

/-- Claim C2: for every list of ready jobs with positive thread counts
and every capacity, the set returned by `KnapsackJobScheduler._knapsack`
is a subset of the ready list, its total threads fit into the available
cores, and that total is maximal over all subsets of the ready list
satisfying the capacity constraint. -/
theorem knapsack_selection_optimal (js : List SJob) (cap : Nat)
    (_hpos : ∀ j ∈ js, 0 < j.threads) :
    (knapSelectJ js cap).Sublist js ∧
    ((knapSelectJ js cap).map SJob.threads).sum ≤ cap ∧
    ∀ s : List SJob, s.Sublist js → (s.map SJob.threads).sum ≤ cap →
      (s.map SJob.threads).sum ≤
        ((knapSelectJ js cap).map SJob.threads).sum := by
  refine ⟨knapSelectJ_sublist js cap, ?_, ?_⟩
  · rw [knapSelectJ_map_threads, knapSelect_sum]
    exact knapSack_le _ _
  · intro s hs hle
    rw [knapSelectJ_map_threads, knapSelect_sum]
    exact knapSack_is_max _ cap _ (hs.map SJob.threads) hle

theorem knapsack_selection_optimal_witness :
    (∀ j ∈ readyThreeJobs, 0 < j.threads) ∧
    ((knapSelectJ readyThreeJobs 4).Sublist readyThreeJobs ∧
      ((knapSelectJ readyThreeJobs 4).map SJob.threads).sum ≤ 4 ∧
      ∀ s : List SJob, s.Sublist readyThreeJobs →
        (s.map SJob.threads).sum ≤ 4 →
        (s.map SJob.threads).sum ≤
          ((knapSelectJ readyThreeJobs 4).map SJob.threads).sum) :=
  ⟨by decide, knapsack_selection_optimal readyThreeJobs 4 (by decide)⟩

/-- Claim C9: during dynamic expansion of an ancestor, a failure while
expanding any dynamic input pattern makes `handle_dynamic_input` abort
with the ancestor untouched: the rule's input list and dynamic flags,
and the job's edges and `ignore` flag, all keep their values, and no
replacement job is produced. -/
theorem dynamic_input_failure_untouched
    (expandF : String → Option (List String))
    (factory : List (String × Bool) → Option Nat)
    (st : AncestorState) (f : String)
    (hmem : (f, true) ∈ st.input) (hfail : expandF f = none) :
    handleDynamicInput expandF factory st = (none, st) := by
  unfold handleDynamicInput
  rw [expandInputs_fail expandF f st.input hmem hfail]

theorem dynamic_input_failure_untouched_witness :
    ((("p", true) : String × Bool) ∈ c9Ancestor.input) ∧
    (fun _ : String => (none : Option (List String))) "p" = none ∧
    handleDynamicInput (fun _ => none) (fun _ => some 7) c9Ancestor =
      (none, c9Ancestor) :=
  ⟨by decide, rfl,
    dynamic_input_failure_untouched _ _ c9Ancestor "p" (by decide) rfl⟩

/-- Claim C10: for a job whose `is_finished` flag is already set,
`Job.cleanup` is a no-op: the guard `if not self.is_finished` fails, so
no output file — dynamic or not — is removed, and the job itself is
never written by `cleanup`. -/
theorem cleanup_noop_when_finished (listfilesF : String → List String)
    (j : JobState) (fs : List String) (h : j.isFinished = true) :
    cleanup listfilesF j fs = fs :=
  cleanup_of_finished listfilesF j fs h

theorem cleanup_noop_when_finished_witness :
    ({ c1FailJob with isFinished := true } : JobState).isFinished = true ∧
    cleanup (fun _ => ["d1", "d2"]) { c1FailJob with isFinished := true }
      ["out.txt", "d1"] = ["out.txt", "d1"] :=
  ⟨rfl, cleanup_noop_when_finished _ _ _ rfl⟩

/-- Claim C6: a job is never dispatched while its `depends` set is
non-empty — every job in a dispatch wave of either scheduler has an
empty `depends` at dispatch time, both loops skipping any job with
`if job.depends: continue` before selection. -/
theorem dispatch_only_when_ready (jobs : List SJob)
    (maxcores cores : Nat) (j : SJob) :
    (j ∈ localDispatch maxcores cores jobs → j.depends = []) ∧
    (j ∈ clusterDispatch jobs → j.depends = []) := by
  have hnorun : j ∈ norunSet jobs → j.depends = [] := by
    intro hj
    have := (List.mem_filter.mp hj).2
    simp only [Bool.and_eq_true] at this
    exact List.isEmpty_iff.mp this.1
  constructor
  · intro hj
    rcases List.mem_append.mp hj with hrun | hno
    · have hmem : j ∈ localNeedrun maxcores jobs :=
        (knapSelectJ_sublist _ _).subset hrun
      simp only [localNeedrun, List.mem_map] at hmem
      obtain ⟨k, hk, hkj⟩ := hmem
      have hkd := (List.mem_filter.mp hk).2
      simp only [Bool.and_eq_true] at hkd
      rw [← hkj, clampThreads_depends]
      exact List.isEmpty_iff.mp hkd.1
    · exact hnorun hno
  · intro hj
    rcases List.mem_append.mp hj with hrun | hno
    · have := (List.mem_filter.mp hrun).2
      simp only [Bool.and_eq_true] at this
      exact List.isEmpty_iff.mp this.1
    · exact hnorun hno

theorem dispatch_only_when_ready_witness :
    oneReadyJob ∈ localDispatch 4 4 [oneReadyJob] ∧
    oneReadyJob ∈ clusterDispatch [oneReadyJob] ∧
    oneReadyJob.depends = [] ∧ oneReadyJob.depends = [] :=
  ⟨by decide, by decide,
    (dispatch_only_when_ready [oneReadyJob] 4 4 oneReadyJob).1 (by decide),
    (dispatch_only_when_ready [oneReadyJob] 4 4 oneReadyJob).2 (by decide)⟩

/-- Claim C1 (code bug): on the error path of `Job.finished` the
declared outputs are NOT removed.  `finished` sets `is_finished = True`
on entry (line 200), so the `self.cleanup()` call at line 219 sees the
guard `if not self.is_finished` fail and removes nothing, although the
comment at line 217 ("in case of an error, execute all callbacks and
delete output") and the spec demand deletion.  Evaluated at the failing
input: a `needrun`, non-pseudo job with declared output `out.txt`
present on disk whose worker future reports an exception — the
filesystem still holds `out.txt` after `finished`, while the error
callbacks fired. -/
theorem finished_error_path_keeps_outputs :
    (finished 0 (some true) idHdo emptyLf c1FailJob emptyDeps
        ["out.txt"]).map (fun r => (r.fs, r.job.errorFired, r.job.fired)) =
      some (["out.txt"], 1, 0) := rfl

/-- Claim C4 counterexample: `Job.finished` has no reentry guard — the
final `for callback in self._callbacks` loop runs on every invocation —
so invoking `finished` twice on a job with no dependents fires the
completion callbacks twice, not exactly once as claimed. -/
theorem finished_double_invocation_counterexample :
    c4DoubleRun = some 2 ∧ c4DoubleRun ≠ some 1 := by
  constructor
  · rfl
  · decide

/-- Claim C4 amended: a single invocation of `Job.finished` fires at
most one round of callbacks, and `finished` is not idempotent.  A
non-raising invocation fires exactly one round: the error callbacks
when the job is `needrun`, non-pseudo and non-ignored and the worker
reported an exception or post-run output verification failed; the
completion callbacks in every other case.  An invocation that raises —
as a repeated `finished()` does on a job with dependents, the detach
loop's `set.remove` raising `KeyError` before either callback loop —
fires none.  Hence the completion callbacks fire exactly once only when
`finished` is invoked exactly once. -/
theorem finished_callback_rounds (selfId : Nat) (future : Option Bool)
    (hdo : JobState → (Nat → List Nat) → Nat → List Nat)
    (listfilesF : String → List String) (j : JobState)
    (deps : Nat → List Nat) (fs : List String) :
    (finished selfId future hdo listfilesF j deps fs).map
      (fun r => (r.job.fired, r.job.errorFired)) =
    if j.ignore then some (j.fired + 1, j.errorFired)
    else if j.needrun && !j.pseudo &&
        (future.getD false || (!j.dryrun && !createdOk fs j)) then
      some (j.fired, j.errorFired + 1)
    else if j.depending.any (fun o => !(deps o).contains selfId) then
      none
    else some (j.fired + 1, j.errorFired) := by
  have hck : createdOk fs { j with isFinished := true } =
      createdOk fs j := rfl
  simp only [finished, hck]
  by_cases h1 : j.ignore = true
  · simp [h1]
  · by_cases h2 : (j.needrun && !j.pseudo &&
        (future.getD false || (!j.dryrun && !createdOk fs j))) = true
    · simp [h1, h2]
    · by_cases h3 : (j.depending.any
          (fun o => !(deps o).contains selfId)) = true
      · have h3p : ∃ x ∈ j.depending, selfId ∉ deps x := by
          simpa using h3
        simp [h1, h2, h3p]
      · have h3p : ¬ ∃ x ∈ j.depending, selfId ∉ deps x := by
          simpa using h3
        simp [h1, h2, h3p]

/-- Claim C3 counterexample: the bidirectional edge invariant does not
hold at every observation point.  In a two-job DAG where job 1 depends
on job 0, completing job 0 removes 0 from job 1's `depends` but leaves
1 in job 0's `depending`, so after `finished` the biconditional
`b ∈ a.depends ⇔ a ∈ b.depending` fails. -/
theorem edge_consistency_counterexample :
    edgeConsistent twoJobDag ∧
    ¬ edgeConsistent (finishedDetach 0 twoJobDag) := by
  constructor
  · decide
  · decide

/-- Claim C3 amended: only the forward direction is invariant — every
`depends` edge is matched by a `depending` entry at every observation
point (job construction, the detach loop of `finished`, and the splice
of `handle_dynamic_input` all preserve it), while the reverse direction
is broken by completion, which never clears the completed job's
`depending` list. -/
theorem edge_forward_preserved (s : DagState) (n i : Nat)
    (ds : List Nat) (h : edgeForward s) :
    edgeForward (initJob n ds s) ∧ edgeForward (finishedDetach i s) ∧
      edgeForward (dynamicDetach i s) := by
  refine ⟨?_, ?_, ?_⟩
  · intro a b hb
    simp only [initJob] at hb ⊢
    by_cases ha : a = n
    · subst ha
      rw [if_pos rfl] at hb
      rw [if_pos hb]
      exact List.mem_append_right _ (List.mem_singleton_self _)
    · rw [if_neg ha] at hb
      have hmem := h a b hb
      by_cases hbd : b ∈ ds
      · rw [if_pos hbd]
        exact List.mem_append_left _ hmem
      · rw [if_neg hbd]
        exact hmem
  · intro a b hb
    simp only [finishedDetach] at hb ⊢
    by_cases hdep : a ∈ s.depending i
    · rw [if_pos hdep] at hb
      exact h a b (List.mem_of_mem_erase hb)
    · rw [if_neg hdep] at hb
      exact h a b hb
  · intro a b hb
    simp only [dynamicDetach] at hb ⊢
    by_cases ha : a = i
    · rw [if_pos ha] at hb
      exact absurd hb (List.not_mem_nil b)
    · rw [if_neg ha] at hb
      have hbdep : b ∈ s.depends a := by
        by_cases hd : a ∈ s.depending i
        · rw [if_pos hd] at hb
          exact List.mem_of_mem_erase hb
        · rw [if_neg hd] at hb
          exact hb
      have hmem := h a b hbdep
      by_cases hbs : b ∈ s.depends i
      · rw [if_pos hbs]
        exact (List.mem_erase_of_ne ha).mpr hmem
      · rw [if_neg hbs]
        exact hmem

theorem edge_forward_preserved_witness :
    edgeForward dagEmpty ∧
    (edgeForward (initJob 0 [] dagEmpty) ∧
      edgeForward (finishedDetach 0 dagEmpty) ∧
      edgeForward (dynamicDetach 0 dagEmpty)) :=
  ⟨fun _ b hb => absurd hb (List.not_mem_nil b),
    edge_forward_preserved dagEmpty 0 0 []
      (fun _ b hb => absurd hb (List.not_mem_nil b))⟩

/-- Claim C5 counterexample: the core accounting invariant
`available_cores + Σ threads(running) = max_cores` is broken by the
error path.  With 2 cores, dispatching a 2-thread job takes the state to
`cores = 0, running = [2]`; when that job fails, only the error callback
runs — `_error` never returns the threads — leaving `cores = 0` with
nothing running, violating the invariant. -/
theorem cores_accounting_counterexample :
    coresInvariant ⟨2, 2, []⟩ ∧
    dispatchStep ⟨2, 2, []⟩ [2] = ⟨2, 0, [2]⟩ ∧
    errorStep ⟨2, 0, [2]⟩ 2 = ⟨2, 0, []⟩ ∧
    ¬ coresInvariant ⟨2, 0, []⟩ := by
  decide

/-- Claim C5 amended: `available_cores + Σ threads(running) = max_cores`
is preserved by every dispatch (the knapsack selection never exceeds the
available cores) and by every successful completion of a `needrun` job;
the error path does not return the failed job's cores and is the sole
exception (the scheduler then stops dispatching). -/
theorem cores_accounting_error_free (s : SchedState) (ready : List Nat)
    (t : Nat) (hinv : coresInvariant s) (ht : t ∈ s.running) :
    coresInvariant (dispatchStep s ready) ∧
      coresInvariant (finishOkStep s t) := by
  constructor
  · have hle : (knapSelect ready s.cores).sum ≤ s.cores := by
      rw [knapSelect_sum]
      exact knapSack_le _ _
    simp only [coresInvariant, dispatchStep, List.sum_append] at hinv ⊢
    omega
  · have hsum : s.running.sum = t + (s.running.erase t).sum := by
      have := (List.perm_cons_erase ht).sum_eq
      simpa using this
    simp only [coresInvariant, finishOkStep] at hinv ⊢
    omega

theorem cores_accounting_error_free_witness :
    coresInvariant ⟨2, 0, [2]⟩ ∧ 2 ∈ [2] ∧
    (coresInvariant (dispatchStep ⟨2, 0, [2]⟩ []) ∧
      coresInvariant (finishOkStep ⟨2, 0, [2]⟩ 2)) :=
  ⟨by decide, by decide,
    cores_accounting_error_free ⟨2, 0, [2]⟩ [] 2 (by decide) (by decide)⟩

/-- Claim C7 counterexample: the emitted script is not named
`.snakemake.<rule>.<outkey>.sh`.  The prefix `".snakemake.{}.".format`
already ends in a dot and `"{}.{}.sh".format` inserts another, so a rule
`r` with output `a/b.txt` yields `.snakemake.r..a_b.txt.sh` — a double
dot — not `.snakemake.r.a_b.txt.sh`. -/
theorem cluster_names_counterexample :
    clusterJobscript "r" ["a/b.txt"] = ".snakemake.r..a_b.txt.sh" ∧
    clusterJobscript "r" ["a/b.txt"] ≠ ".snakemake.r.a_b.txt.sh" := by
  constructor
  · decide
  · decide

/-- Claim C7 amended: for every cluster-dispatched job the emitted
script file is named `.snakemake.<rule>..<outkey>.sh` — with a double
dot, the prefix ending in a dot and the format string supplying one
more — and the sentinels are `.snakemake.<rule>..<outkey>.jobfinished`
and `.snakemake.<rule>..<outkey>.jobfailed`, where `<outkey>` is the
job's outputs joined by `_` with every `/` replaced by `_`. -/
theorem cluster_names_double_dot (rulename : String)
    (output : List String) :
    clusterJobscript rulename output =
      ".snakemake." ++ rulename ++ ".." ++ clusterJobidStr output ++
        ".sh" ∧
    clusterJobfinished rulename output =
      ".snakemake." ++ rulename ++ ".." ++ clusterJobidStr output ++
        ".jobfinished" ∧
    clusterJobfailed rulename output =
      ".snakemake." ++ rulename ++ ".." ++ clusterJobidStr output ++
        ".jobfailed" := by
  have hdot : ("." : String) ++ "." = ".." := rfl
  refine ⟨?_, ?_, ?_⟩ <;>
    simp only [clusterJobscript, clusterJobfinished, clusterJobfailed,
      clusterPrefixStr, String.append_assoc, hdot]

/-- Claim C8 counterexample: the warning is not always logged.  When one
ancestor expands into exactly one replacement job (here job 5, with the
originating job 0 not among the new jobs), the net addition
`n = 1 - 1 = 0` and `if n:` suppresses the warning, while the jobs are
attached and the counter moves by 0. -/
theorem dynamic_warning_counterexample :
    (handleDynamicOutput 0 [some {5}]).warned = false ∧
    (handleDynamicOutput 0 [some {5}]).attached = {5} ∧
    (handleDynamicOutput 0 [some {5}]).counterDelta = 0 := by
  decide

/-- Claim C8 amended: when dynamic expansion completes, every newly
generated job other than the originating one is attached to the
scheduler, the job counter is incremented by exactly (number of
attached jobs − number of ancestors expanded), and the warning stating
the net addition is logged iff that net addition is non-zero. -/
theorem dynamic_output_accounting (selfId : Nat)
    (results : List (Option (Finset Nat))) (a : Nat)
    (ha : a ∈ newJobsUnion results) (hne : a ≠ selfId) :
    a ∈ (handleDynamicOutput selfId results).attached ∧
    (handleDynamicOutput selfId results).counterDelta =
      ((handleDynamicOutput selfId results).attached.card : Int) -
        (dynCount results : Int) ∧
    ((handleDynamicOutput selfId results).warned = true ↔
      (handleDynamicOutput selfId results).counterDelta ≠ 0) := by
  refine ⟨?_, rfl, ?_⟩
  · simp only [handleDynamicOutput]
    split
    · exact Finset.mem_erase.mpr ⟨hne, ha⟩
    · exact ha
  · simp only [handleDynamicOutput]
    exact bne_iff_ne

theorem dynamic_output_accounting_witness :
    5 ∈ newJobsUnion [some {5}] ∧ (5 : Nat) ≠ 0 ∧
    (5 ∈ (handleDynamicOutput 0 [some {5}]).attached ∧
      (handleDynamicOutput 0 [some {5}]).counterDelta =
        (((handleDynamicOutput 0 [some {5}]).attached.card : Int) -
          (dynCount [some {5}] : Int)) ∧
      ((handleDynamicOutput 0 [some {5}]).warned = true ↔
        (handleDynamicOutput 0 [some {5}]).counterDelta ≠ 0)) :=
  ⟨by decide, by decide,
    dynamic_output_accounting 0 [some {5}] 5 (by decide) (by decide)⟩

end Snakemake
